import Mathlib

/-!
Shallow embedding of the reservation engine of the lab equipment booking
application (src/app.py) and proofs of its specified properties.

Modelling conventions: pandas tables become lists of records whose
fields are strings (load_sheet converts every cell to a string); Python
string comparison becomes comparison of the underlying character lists,
which is the same lexicographic order; Python float division in the
duration aggregator is modelled over the rationals; the wall clock
(datetime.now), which only supplies the generated booking id and the log
timestamp, is passed in as an explicit argument; store writes are
modelled as succeeding.  The dynamically typed view of the conflict
checker, including its try/except guard against missing columns, is
modelled separately by rawCheckOverlap over tables with an explicit
column list.
-/

/-- Numeric value of a decimal digit character: its codepoint minus 48. -/
def digitVal (c : Char) : Nat := c.toNat - 48

/-- Two-digit zero-padded decimal rendering, as produced by the 02d
Python format specifier for arguments below 100. -/
def pad2 (n : Nat) : String :=
  String.mk [Char.ofNat (48 + n / 10), Char.ofNat (48 + n % 10)]

/-- Four-digit zero-padded decimal rendering, as produced for the year
field of a Python date isoformat string. -/
def pad4 (n : Nat) : String :=
  if n < 10 then "000" ++ toString n
  else if n < 100 then "00" ++ toString n
  else if n < 1000 then "0" ++ toString n
  else toString n

/-- parse_time from src/app.py lines 93-100: a raw time string is valid
iff it has exactly 4 characters, all decimal digits, with hour at most
23 and minute at most 59; the result is the zero-padded HH:MM form. -/
def parse_time (time_str : String) : Option String :=
  match time_str.data with
  | [c0, c1, c2, c3] =>
    if c0.isDigit && c1.isDigit && c2.isDigit && c3.isDigit then
      let h := 10 * digitVal c0 + digitVal c1
      let m := 10 * digitVal c2 + digitVal c3
      if h ≤ 23 && m ≤ 59 then some (pad2 h ++ ":" ++ pad2 m) else none
    else none
  | _ => none

/-- A row of the bookings sheet (columns as in get_empty_structure). -/
structure Booking where
  id : String
  user_name : String
  lab : String
  equipment : String
  date : String
  start_time : String
  end_time : String
  password : String
deriving DecidableEq

/-- Python string slicing s[:5], used by check_overlap to normalise the
stored time columns before comparing. -/
def pySlice5 (s : String) : String := String.mk (s.data.take 5)

/-- Boolean lexicographic comparison of strings via their character
lists; Python string < is this lexicographic order. -/
def strLt (a b : String) : Bool := decide (a.data < b.data)

/-- check_overlap from src/app.py lines 102-125, on the typed view of
the bookings table: filter rows with the same date and equipment,
normalise the stored times with s[:5], and return the first row whose
half-open interval strictly overlaps the candidate, together with its
user_name. -/
def check_overlap (df : List Booking) (date_str eq_name start_time end_time : String) :
    Bool × String :=
  if df.isEmpty then (false, "")
  else
    let same := df.filter fun r => r.date == date_str && r.equipment == eq_name
    if same.isEmpty then (false, "")
    else
      let fmtd := same.map fun r =>
        { r with start_time := pySlice5 r.start_time, end_time := pySlice5 r.end_time }
      match fmtd.find? fun r => strLt r.start_time end_time && strLt start_time r.end_time with
      | some r => (true, r.user_name)
      | none => (false, "")

/-- The conflict predicate of the specification: a stored row conflicts
with the candidate interval on the given date and resource iff date and
resource match exactly and row.start < end and start < row.end, with
lexicographic comparison on the raw stored strings. -/
def ConflictsWith (date_str eq_name start_time end_time : String) (r : Booking) : Prop :=
  r.date = date_str ∧ r.equipment = eq_name ∧
    r.start_time.data < end_time.data ∧ start_time.data < r.end_time.data

instance (date_str eq_name start_time end_time : String) (r : Booking) :
    Decidable (ConflictsWith date_str eq_name start_time end_time r) := by
  unfold ConflictsWith; infer_instance

/-- Python int() applied to a string: an optional sign followed by a
nonempty run of decimal digits.  (The lenience of the CPython parser
about surrounding whitespace, underscores between digits and non-ASCII
digits is not modelled.) -/
def pyInt? (s : String) : Option Int :=
  match s.data with
  | '-' :: rest =>
    if rest.isEmpty || !rest.all Char.isDigit then none
    else some (-(Int.ofNat (rest.foldl (fun acc c => 10 * acc + digitVal c) 0)))
  | '+' :: rest =>
    if rest.isEmpty || !rest.all Char.isDigit then none
    else some (Int.ofNat (rest.foldl (fun acc c => 10 * acc + digitVal c) 0))
  | l =>
    if l.isEmpty || !l.all Char.isDigit then none
    else some (Int.ofNat (l.foldl (fun acc c => 10 * acc + digitVal c) 0))

/-- Python split on the single separator character, over character
lists: an empty input gives one empty part, and every occurrence of the
separator opens a new part. -/
def splitColon (l : List Char) : List (List Char) :=
  match l with
  | [] => [[]]
  | c :: rest =>
    let r := splitColon rest
    if c = ':' then [] :: r
    else
      match r with
      | h :: t => (c :: h) :: t
      | [] => [[c]]

/-- Python s.split with separator colon, as a list of strings. -/
def pySplitColon (s : String) : List String := (splitColon s.data).map String.mk

/-- The minute computation of calculate_hours for one time string:
split on the colon, require exactly two int()-parsable parts, and
return hours times 60 plus minutes.  A parse or unpack failure is the
caught exception path of the source. -/
def minutesOfStr (s : String) : Option Int :=
  match pySplitColon s with
  | [hs, ms] =>
    match pyInt? hs, pyInt? ms with
    | some h, some m => some (h * 60 + m)
    | _, _ => none
  | _ => none

/-- End-minute computation of calculate_hours: the sentinel 24:00 is
treated as 1440 minutes before the general parse is attempted. -/
def endMinutes (end_str : String) : Option Int :=
  if end_str = "24:00" then some 1440 else minutesOfStr end_str

/-- calculate_hours from src/app.py lines 127-141, with real division
modelled over the rationals: the difference of end and start minutes
divided by 60, and 0.0 whenever either minute computation fails. -/
def calculate_hours (start_str end_str : String) : ℚ :=
  match endMinutes end_str, minutesOfStr start_str with
  | some em, some sm => ((em - sm : Int) : ℚ) / 60
  | _, _ => 0

/-- A Python datetime.date value. -/
structure PyDate where
  year : Nat
  month : Nat
  day : Nat
deriving DecidableEq

/-- Gregorian leap year rule, as used by the Python date type. -/
def isLeap (y : Nat) : Bool := (y % 4 == 0 && y % 100 != 0) || y % 400 == 0

/-- Number of days of a month in the Gregorian calendar. -/
def daysInMonth (y m : Nat) : Nat :=
  if m == 2 then if isLeap y then 29 else 28
  else if m == 4 || m == 6 || m == 9 || m == 11 then 30
  else 31

/-- date + timedelta(days=1): the Gregorian successor day. -/
def nextDay (d : PyDate) : PyDate :=
  if d.day < daysInMonth d.year d.month then ⟨d.year, d.month, d.day + 1⟩
  else if d.month < 12 then ⟨d.year, d.month + 1, 1⟩
  else ⟨d.year + 1, 1, 1⟩

/-- str(date): the zero-padded ISO form YYYY-MM-DD. -/
def dateStr (d : PyDate) : String :=
  pad4 d.year ++ "-" ++ pad2 d.month ++ "-" ++ pad2 d.day

/-- A row of the logs sheet. -/
structure LogEntry where
  timestamp : String
  action : String
  user : String
  details : String
deriving DecidableEq

/-- add_log from src/app.py lines 78-91: append one row to the logs
table (its swallowed failure path leaves the log unchanged and is not
separately modelled, since the claims only count appended entries). -/
def add_log (logs : List LogEntry) (ts action user details : String) : List LogEntry :=
  logs ++ [⟨ts, action, user, details⟩]

/-- The distinct rejection paths of the create handler. -/
inductive CreateError where
  | noName
  | badPassword
  | badTime
  | sameTime
  | conflict (blocker : String)
deriving DecidableEq

/-- Result of one create request: the bookings table and log after the
request, plus the rejection reason when the request failed. -/
structure CreateOutcome where
  bookings : List Booking
  logs : List LogEntry
  error : Option CreateError
deriving DecidableEq

/-- The password shape check of the create handler: exactly 4
characters, all decimal digits. -/
def pwValid (password : String) : Bool :=
  password.length == 4 && password.data.all Char.isDigit

/-- The create handler of src/app.py lines 214-296: validation, then
either the overnight branch (end before start: check both halves, then
append the two split records sharing one base id) or the plain branch
(one check, one appended record).  base_id stands for the id string
derived from datetime.now and log_ts for the log timestamp. -/
def create_booking (df : List Booking) (logs : List LogEntry)
    (user_name user_lab eq_name : String) (date : PyDate)
    (start_str end_str password base_id log_ts : String) : CreateOutcome :=
  if user_name = "" then ⟨df, logs, some .noName⟩
  else if !pwValid password then ⟨df, logs, some .badPassword⟩
  else
    match parse_time start_str, parse_time end_str with
    | some fs, some fe =>
      if fs = fe then ⟨df, logs, some .sameTime⟩
      else if strLt fe fs then
        let next_day := nextDay date
        let ov1 := check_overlap df (dateStr date) eq_name fs "24:00"
        let ov2 := check_overlap df (dateStr next_day) eq_name "00:00" fe
        if ov1.1 || ov2.1 then
          ⟨df, logs, some (.conflict (if ov1.1 then ov1.2 else ov2.2))⟩
        else
          let rowA : Booking :=
            ⟨base_id ++ "_1", user_name, user_lab, eq_name, dateStr date, fs, "24:00", password⟩
          let rowB : Booking :=
            ⟨base_id ++ "_2", user_name, user_lab, eq_name, dateStr next_day, "00:00", fe, password⟩
          ⟨df ++ [rowA, rowB],
            add_log logs log_ts "예약(overnight)" user_name (eq_name ++ " " ++ fs ++ "~" ++ fe),
            none⟩
      else
        let ov := check_overlap df (dateStr date) eq_name fs fe
        if ov.1 then ⟨df, logs, some (.conflict ov.2)⟩
        else
          let row : Booking :=
            ⟨base_id, user_name, user_lab, eq_name, dateStr date, fs, fe, password⟩
          ⟨df ++ [row],
            add_log logs log_ts "예약" user_name
              (eq_name ++ " " ++ dateStr date ++ " " ++ fs ++ "~" ++ fe),
            none⟩
    | _, _ => ⟨df, logs, some .badTime⟩

/-- The delete handler of src/app.py lines 370-379: on a password
match, keep exactly the rows whose id differs from the target id and
append one log entry; otherwise leave both tables unchanged. -/
def delete_booking (df : List Booking) (logs : List LogEntry)
    (booking : Booking) (pw_input log_ts : String) : List Booking × List LogEntry :=
  if pw_input = booking.password then
    (df.filter fun r => r.id != booking.id,
      add_log logs log_ts "삭제" booking.user_name booking.equipment)
  else (df, logs)

/-- A row of the water usage sheet. -/
structure WaterRow where
  date : String
  user_name : String
  lab : String
  amount : String
deriving DecidableEq

/-- The five logical tables of the store. -/
structure AppState where
  labs : List String
  equipment : List String
  bookings : List Booking
  water : List WaterRow
  logs : List LogEntry
deriving DecidableEq

/-- The lab registry save of the admin settings tab, src/app.py lines
600-610: the edited labs table is written back as-is; no other sheet is
read or written and no duplicate check is performed. -/
def admin_save_labs (st : AppState) (edited : List String) : AppState :=
  { st with labs := edited }

/-- A dynamically typed table as the conflict checker actually receives
it: a list of column names and, for each row, a cell lookup function
(meaningful on the listed columns; every cell is a string after
load_sheet).  Accessing an unlisted column raises in pandas, which the
try/except of check_overlap turns into the no-conflict result. -/
structure RawDF where
  cols : List String
  rows : List (String → String)

/-- check_overlap from src/app.py lines 102-125 on the dynamically
typed view: the empty-table guard runs before the try block, and every
access to a column absent from the table raises and is caught,
producing (false, empty string). -/
def rawCheckOverlap (df : RawDF) (date_str eq_name start_time end_time : String) :
    Bool × String :=
  if df.rows.isEmpty then (false, "")
  else if !(df.cols.contains "date" && df.cols.contains "equipment") then (false, "")
  else
    let same := df.rows.filter fun r => r "date" == date_str && r "equipment" == eq_name
    if same.isEmpty then (false, "")
    else if !(df.cols.contains "start_time" && df.cols.contains "end_time") then (false, "")
    else
      match same.find? fun r =>
          strLt (pySlice5 (r "start_time")) end_time &&
            strLt start_time (pySlice5 (r "end_time")) with
      | some r => if df.cols.contains "user_name" then (true, r "user_name") else (false, "")
      | none => (false, "")

/-- Cell lookup function of one typed booking row. -/
def bookingCell (b : Booking) : String → String := fun c =>
  if c = "id" then b.id
  else if c = "user_name" then b.user_name
  else if c = "lab" then b.lab
  else if c = "equipment" then b.equipment
  else if c = "date" then b.date
  else if c = "start_time" then b.start_time
  else if c = "end_time" then b.end_time
  else if c = "password" then b.password
  else ""

/-- The column list of the bookings sheet (get_empty_structure). -/
def bookingCols : List String :=
  ["id", "user_name", "lab", "equipment", "date", "start_time", "end_time", "password"]

/-- The dynamically typed view of a typed bookings table. -/
def toRawDF (df : List Booking) : RawDF := ⟨bookingCols, df.map bookingCell⟩

/-- Hour digit value of a time string: ten times the first digit plus
the second. -/
def hourVal (s : String) : Nat :=
  match s.data with
  | c0 :: c1 :: _ => 10 * digitVal c0 + digitVal c1
  | _ => 0

/-- Minute digit value of a 4-digit time string: ten times the third
digit plus the fourth. -/
def minuteVal (s : String) : Nat :=
  match s.data with
  | _ :: _ :: c2 :: c3 :: _ => 10 * digitVal c2 + digitVal c3
  | _ => 0

/-- A zero-padded HH:MM string with hour at most 23 and minute at most
59, or the end-of-day sentinel 24:00. -/
def isTimeStr (s : String) : Bool :=
  match s.data with
  | [a, b, c, d, e] =>
    a.isDigit && b.isDigit && (c == ':') && d.isDigit && e.isDigit &&
      (let hv := 10 * digitVal a + digitVal b
       let mv := 10 * digitVal d + digitVal e
       (hv ≤ 23 && mv ≤ 59) || (hv == 24 && mv == 0))
  | _ => false

/-- Minute value of a well-formed HH:MM string. -/
def minutesOf (s : String) : Nat :=
  match s.data with
  | [a, b, _, d, e] => (10 * digitVal a + digitVal b) * 60 + (10 * digitVal d + digitVal e)
  | _ => 0

/-- State used by the counterexample to the rename-cascade claim: one
lab, one reservation and one water row referencing it. -/
def c4state : AppState :=
  ⟨["Lab1"], ["Scope"],
    [⟨"id1", "Ann", "Lab1", "Scope", "2025-01-06", "09:00", "10:00", "1111"⟩],
    [⟨"2025-01-06", "Ann", "Lab1", "3.5"⟩], []⟩

/-! ### Shared helper lemmas -/

theorem char_toNat_inj {a b : Char} (h : a.toNat = b.toNat) : a = b := by
  have ha := Char.ofNat_toNat a
  rw [h, Char.ofNat_toNat] at ha
  exact ha.symm

theorem isDigit_toNat {c : Char} (h : c.isDigit = true) : 48 ≤ c.toNat ∧ c.toNat ≤ 57 := by
  simp [Char.isDigit] at h
  exact ⟨h.1, h.2⟩

theorem pad2_digits {c0 c1 : Char} (h0 : c0.isDigit = true) (h1 : c1.isDigit = true) :
    pad2 (10 * digitVal c0 + digitVal c1) = String.mk [c0, c1] := by
  obtain ⟨l0, u0⟩ := isDigit_toNat h0
  obtain ⟨l1, u1⟩ := isDigit_toNat h1
  have e1 : (10 * digitVal c0 + digitVal c1) / 10 = digitVal c0 := by unfold digitVal; omega
  have e2 : (10 * digitVal c0 + digitVal c1) % 10 = digitVal c1 := by unfold digitVal; omega
  unfold pad2
  rw [e1, e2]
  have f0 : 48 + digitVal c0 = c0.toNat := by unfold digitVal; omega
  have f1 : 48 + digitVal c1 = c1.toNat := by unfold digitVal; omega
  rw [f0, f1, Char.ofNat_toNat, Char.ofNat_toNat]

/-! ### C3: the time parser -/

/-- C3: parse_time succeeds exactly on 4-character all-digit strings
whose hour is at most 23 and minute at most 59, and then returns the
canonical HH:MM form of those digits (the two hour digits, a colon, the
two minute digits); every other input fails. -/
theorem parse_time_spec (s : String) :
    (∀ r, parse_time s = some r →
      s.length = 4 ∧ s.data.all Char.isDigit = true ∧ hourVal s ≤ 23 ∧ minuteVal s ≤ 59 ∧
        r = String.mk (s.data.take 2) ++ ":" ++ String.mk (s.data.drop 2)) ∧
    ((s.length = 4 ∧ s.data.all Char.isDigit = true ∧ hourVal s ≤ 23 ∧ minuteVal s ≤ 59) →
      ∃ r, parse_time s = some r) := by
  obtain ⟨l⟩ := s
  rcases l with _ | ⟨c0, _ | ⟨c1, _ | ⟨c2, _ | ⟨c3, _ | ⟨c4, t⟩⟩⟩⟩⟩
  · exact ⟨fun r h => absurd h (by simp [parse_time]),
      fun h => absurd h.1 (by simp [String.length])⟩
  · exact ⟨fun r h => absurd h (by simp [parse_time]),
      fun h => absurd h.1 (by simp [String.length])⟩
  · exact ⟨fun r h => absurd h (by simp [parse_time]),
      fun h => absurd h.1 (by simp [String.length])⟩
  · exact ⟨fun r h => absurd h (by simp [parse_time]),
      fun h => absurd h.1 (by simp [String.length])⟩
  · constructor
    · intro r h
      simp only [parse_time] at h
      by_cases hdig : (c0.isDigit && c1.isDigit && c2.isDigit && c3.isDigit) = true
      · rw [if_pos hdig] at h
        simp only [Bool.and_eq_true] at hdig
        obtain ⟨⟨⟨d0, d1⟩, d2⟩, d3⟩ := hdig
        by_cases hrng :
            (decide (10 * digitVal c0 + digitVal c1 ≤ 23) &&
              decide (10 * digitVal c2 + digitVal c3 ≤ 59)) = true
        · rw [if_pos hrng] at h
          simp only [Bool.and_eq_true, decide_eq_true_eq] at hrng
          injection h with h2
          refine ⟨rfl, by simp [d0, d1, d2, d3], hrng.1, hrng.2, ?_⟩
          rw [← h2, pad2_digits d0 d1, pad2_digits d2 d3]
          rfl
        · rw [if_neg hrng] at h
          exact absurd h (by simp)
      · rw [if_neg hdig] at h
        exact absurd h (by simp)
    · rintro ⟨-, hall, hh, hm⟩
      simp only [List.all_cons, List.all_nil, Bool.and_eq_true, and_true] at hall
      obtain ⟨d0, d1, d2, d3⟩ := hall
      simp only [hourVal] at hh
      simp only [minuteVal] at hm
      simp only [parse_time]
      rw [if_pos (by simp [d0, d1, d2, d3])]
      rw [if_pos (by simp only [Bool.and_eq_true, decide_eq_true_eq]; exact ⟨hh, hm⟩)]
      exact ⟨_, rfl⟩
  · exact ⟨fun r h => absurd h (by simp [parse_time]),
      fun h => absurd h.1 (by simp [String.length])⟩

/-- Witness for C3 at the concrete input 0930. -/
theorem parse_time_spec_witness :
    ("0930" : String).length = 4 ∧ ("0930" : String).data.all Char.isDigit = true ∧
      hourVal "0930" ≤ 23 ∧ minuteVal "0930" ≤ 59 ∧
      ("09:30" : String) =
        String.mk (("0930" : String).data.take 2) ++ ":" ++
          String.mk (("0930" : String).data.drop 2) :=
  (parse_time_spec "0930").1 "09:30" (by decide)

/-! ### C7: the duration aggregator -/

/-- C7: calculate_hours equals end minutes minus start minutes divided
by 60, with the end sentinel 24:00 counting as 1440 minutes, and yields
0 whenever either minute computation fails; in particular the duration
from 09:00 to 24:00 is 15. -/
theorem calculate_hours_spec :
    (∀ s e em sm, endMinutes e = some em → minutesOfStr s = some sm →
      calculate_hours s e = ((em - sm : Int) : ℚ) / 60) ∧
    (∀ s e, endMinutes e = none ∨ minutesOfStr s = none → calculate_hours s e = 0) ∧
    endMinutes "24:00" = some 1440 ∧
    calculate_hours "09:00" "24:00" = 15 := by
  refine ⟨?_, ?_, rfl, ?_⟩
  · intro s e em sm he hs
    simp only [calculate_hours, he, hs]
  · intro s e h
    rcases h with h | h
    · simp only [calculate_hours, h]
    · simp only [calculate_hours, h]
      cases endMinutes e <;> rfl
  · have h1 : endMinutes "24:00" = some 1440 := rfl
    have h2 : minutesOfStr "09:00" = some 540 := by decide
    simp only [calculate_hours, h1, h2]
    norm_num

/-- Witness for C7 at the concrete inputs 08:00 and 10:30. -/
theorem calculate_hours_spec_witness :
    calculate_hours "08:00" "10:30" = ((630 - 480 : Int) : ℚ) / 60 :=
  calculate_hours_spec.1 "08:00" "10:30" 630 480 (by decide) (by decide)

/-! ### C8: lexicographic time comparison agrees with minute values -/

theorem charLex_cons_iff (a b : Char) (as bs : List Char) :
    List.Lex (fun x y : Char => x < y) (a :: as) (b :: bs) ↔
      a.toNat < b.toNat ∨ (a.toNat = b.toNat ∧ List.Lex (fun x y : Char => x < y) as bs) := by
  constructor
  · intro h
    cases h with
    | cons h => exact Or.inr ⟨rfl, h⟩
    | rel h => exact Or.inl h
  · rintro (h | ⟨heq, h⟩)
    · exact List.Lex.rel h
    · have hab : a = b := char_toNat_inj heq
      subst hab
      exact List.Lex.cons h

theorem charLex_nil_iff (l : List Char) :
    List.Lex (fun x y : Char => x < y) l [] ↔ False := by
  constructor
  · intro h; cases h
  · intro h; cases h

theorem string_lt_iff_data (a b : String) : a < b ↔ a.data < b.data :=
  String.lt_iff_toList_lt

theorem list_lt_iff_charLex (a b : List Char) :
    a < b ↔ List.Lex (fun x y : Char => x < y) a b := Iff.rfl

theorem isTimeStr_shape {l : List Char} (h : isTimeStr ⟨l⟩ = true) :
    ∃ a b d e, l = [a, b, ':', d, e] ∧ a.isDigit = true ∧ b.isDigit = true ∧
      d.isDigit = true ∧ e.isDigit = true ∧
      ((10 * digitVal a + digitVal b ≤ 23 ∧ 10 * digitVal d + digitVal e ≤ 59) ∨
        (10 * digitVal a + digitVal b = 24 ∧ 10 * digitVal d + digitVal e = 0)) := by
  rcases l with _ | ⟨a, _ | ⟨b, _ | ⟨c, _ | ⟨d, _ | ⟨e, _ | ⟨f, t⟩⟩⟩⟩⟩⟩ <;>
    simp [isTimeStr] at h
  obtain ⟨⟨⟨⟨⟨pa, pb⟩, pc⟩, pd⟩, pe⟩, hr⟩ := h
  subst pc
  exact ⟨a, b, d, e, rfl, pa, pb, pd, pe, by omega⟩

/-- C8: on well-formed zero-padded HH:MM strings (the end-of-day
sentinel 24:00 included), lexicographic string comparison agrees with
comparison of the minute values. -/
theorem time_lex_iff_minutes (s t : String) (hs : isTimeStr s = true)
    (ht : isTimeStr t = true) : s < t ↔ minutesOf s < minutesOf t := by
  obtain ⟨ls⟩ := s
  obtain ⟨ms⟩ := t
  obtain ⟨a1, b1, d1, e1, rfl, pa1, pb1, pd1, pe1, hr1⟩ := isTimeStr_shape hs
  obtain ⟨a2, b2, d2, e2, rfl, pa2, pb2, pd2, pe2, hr2⟩ := isTimeStr_shape ht
  obtain ⟨la1, ua1⟩ := isDigit_toNat pa1
  obtain ⟨lb1, ub1⟩ := isDigit_toNat pb1
  obtain ⟨ld1, ud1⟩ := isDigit_toNat pd1
  obtain ⟨le1, ue1⟩ := isDigit_toNat pe1
  obtain ⟨la2, ua2⟩ := isDigit_toNat pa2
  obtain ⟨lb2, ub2⟩ := isDigit_toNat pb2
  obtain ⟨ld2, ud2⟩ := isDigit_toNat pd2
  obtain ⟨le2, ue2⟩ := isDigit_toNat pe2
  rw [string_lt_iff_data]
  show [a1, b1, ':', d1, e1] < [a2, b2, ':', d2, e2] ↔ _
  rw [list_lt_iff_charLex]
  simp only [charLex_cons_iff, charLex_nil_iff, minutesOf, lt_self_iff_false, false_or,
    and_false, or_false, true_and, eq_self_iff_true]
  simp only [digitVal] at hr1 hr2 ⊢
  omega

/-- Witness for C8 at the concrete inputs 09:30 and 24:00. -/
theorem time_lex_iff_minutes_witness :
    isTimeStr "09:30" = true ∧ isTimeStr "24:00" = true ∧
      (("09:30" : String) < "24:00" ↔ minutesOf "09:30" < minutesOf "24:00") :=
  ⟨by decide, by decide, time_lex_iff_minutes "09:30" "24:00" (by decide) (by decide)⟩

/-! ### C1: the conflict checker -/

theorem find?_congr_mem {α : Type} {p q : α → Bool} (l : List α) (h : ∀ a ∈ l, p a = q a) :
    l.find? p = l.find? q := by
  induction l with
  | nil => rfl
  | cons a l ih =>
    have ha : p a = q a := h a (by simp)
    by_cases hq : q a = true
    · rw [List.find?_cons_of_pos _ (by rw [ha]; exact hq), List.find?_cons_of_pos _ hq]
    · have hq2 : ¬ p a = true := by rw [ha]; exact hq
      rw [List.find?_cons_of_neg _ hq2, List.find?_cons_of_neg _ hq]
      exact ih fun b hb => h b (by simp [hb])

theorem pySlice5_of_short {s : String} (h : s.length ≤ 5) : pySlice5 s = s := by
  obtain ⟨l⟩ := s
  have hl : l.length ≤ 5 := h
  simp only [pySlice5]
  rw [List.take_of_length_le hl]

/-- C1: on tables whose stored time fields have the documented HH:MM
width (at most 5 characters, so that the s[:5] normalisation is the
identity), check_overlap returns the first row in table order that has
exactly the requested date and resource and strictly overlapping
half-open interval, together with that row's user_name; it reports a
conflict iff such a row exists, and touching intervals never satisfy
the conflict predicate. -/
theorem check_overlap_spec (df : List Booking) (d q s e : String)
    (h : ∀ r ∈ df, r.start_time.length ≤ 5 ∧ r.end_time.length ≤ 5) :
    (check_overlap df d q s e =
      match df.find? (fun r => decide (ConflictsWith d q s e r)) with
      | some r => (true, r.user_name)
      | none => (false, "")) ∧
    ((check_overlap df d q s e).1 = true ↔ ∃ r ∈ df, ConflictsWith d q s e r) ∧
    (∀ r : Booking, e = r.start_time ∨ r.end_time = s → ¬ ConflictsWith d q s e r) := by
  have hmain : check_overlap df d q s e =
      match df.find? (fun r => decide (ConflictsWith d q s e r)) with
      | some r => (true, r.user_name)
      | none => (false, "") := by
    simp only [check_overlap]
    by_cases hemp : df.isEmpty
    · rw [if_pos hemp]
      rw [List.isEmpty_iff] at hemp
      subst hemp
      rfl
    · rw [if_neg hemp]
      by_cases hsame :
          (df.filter fun r => r.date == d && r.equipment == q).isEmpty
      · rw [if_pos hsame]
        rw [List.isEmpty_iff] at hsame
        have hnone : df.find? (fun r => decide (ConflictsWith d q s e r)) = none := by
          rw [List.find?_eq_none]
          intro r hr hcon
          have hmem : r ∈ df.filter fun r => r.date == d && r.equipment == q := by
            rw [List.mem_filter]
            refine ⟨hr, ?_⟩
            have hc := of_decide_eq_true hcon
            simp [hc.1, hc.2.1]
          rw [hsame] at hmem
          exact absurd hmem (List.not_mem_nil r)
        rw [hnone]
      · rw [if_neg hsame]
        rw [List.find?_map, List.find?_filter]
        have hcong : df.find?
            (fun a => decide ((a.date == d && a.equipment == q) = true ∧
              ((fun r => strLt r.start_time e && strLt s r.end_time) ∘ fun r =>
                { r with start_time := pySlice5 r.start_time,
                         end_time := pySlice5 r.end_time }) a = true)) =
            df.find? (fun r => decide (ConflictsWith d q s e r)) := by
          apply find?_congr_mem
          intro a ha
          obtain ⟨h1, h2⟩ := h a ha
          apply decide_eq_decide.mpr
          simp only [Function.comp, pySlice5_of_short h1, pySlice5_of_short h2,
            Bool.and_eq_true, beq_iff_eq, ConflictsWith, strLt, decide_eq_true_eq]
          tauto
        rw [hcong]
        cases hfind : df.find? (fun r => decide (ConflictsWith d q s e r)) with
        | none => rfl
        | some r => rfl
  refine ⟨hmain, ?_, ?_⟩
  · rw [hmain]
    cases hfind : df.find? (fun r => decide (ConflictsWith d q s e r)) with
    | none =>
      simp only [Bool.false_eq_true, false_iff]
      rw [List.find?_eq_none] at hfind
      rintro ⟨r, hr, hc⟩
      exact hfind r hr (decide_eq_true hc)
    | some r =>
      simp only [true_iff]
      have hp := List.find?_some hfind
      exact ⟨r, List.mem_of_find?_eq_some hfind, of_decide_eq_true hp⟩
  · rintro r (rfl | hes) hc
    · exact absurd hc.2.2.1 (lt_irrefl _)
    · rw [← hes] at hc
      exact absurd hc.2.2.2 (lt_irrefl _)

/-- Witness for C1: a one-row table with a genuine overlap. -/
theorem check_overlap_spec_witness :
    check_overlap [⟨"b1", "Bea", "L", "R", "2025-01-06", "09:00", "10:00", "1111"⟩]
        "2025-01-06" "R" "09:30" "11:00" = (true, "Bea") ∧
      (∃ r ∈ [(⟨"b1", "Bea", "L", "R", "2025-01-06", "09:00", "10:00", "1111"⟩ : Booking)],
        ConflictsWith "2025-01-06" "R" "09:30" "11:00" r) :=
  ⟨((check_overlap_spec _ "2025-01-06" "R" "09:30" "11:00" (by decide)).1).trans (by decide),
    ((check_overlap_spec _ "2025-01-06" "R" "09:30" "11:00" (by decide)).2.1).mp (by decide)⟩

/-! ### C5: no excluded-id parameter on the conflict checker -/

theorem isEmpty_map {α β : Type} (f : α → β) (l : List α) : (l.map f).isEmpty = l.isEmpty := by
  cases l <;> rfl

/-- C5 counterexample: the conflict checker has no excluded-id
argument, so re-checking the shrunk interval 09:00 to 09:30 against a
table that still holds the edited record itself (09:00 to 10:00 on the
same resource and date) reports that very record as the blocker instead
of succeeding. -/
theorem edit_self_conflicts :
    check_overlap [⟨"20250101090000", "Alice", "Lab1", "Micro", "2025-01-06", "09:00", "10:00", "1234"⟩]
      "2025-01-06" "Micro" "09:00" "09:30" = (true, "Alice") := by decide

/-- C5 amended: check_overlap never excludes any row by id; its result
is invariant under arbitrary rewriting of every row's id field. -/
theorem check_overlap_ignores_id (df : List Booking) (d q s e : String) (f : Booking → String) :
    check_overlap (df.map fun r => { r with id := f r }) d q s e =
      check_overlap df d q s e := by
  simp only [check_overlap, isEmpty_map, List.filter_map, Function.comp_def,
    List.map_map, List.find?_map]
  by_cases h1 : df.isEmpty
  · rw [if_pos h1, if_pos h1]
  · rw [if_neg h1, if_neg h1]
    by_cases h2 : (df.filter fun r => r.date == d && r.equipment == q).isEmpty
    · rw [if_pos h2, if_pos h2]
    · rw [if_neg h2, if_neg h2]
      cases hf : (df.filter fun r => r.date == d && r.equipment == q).find?
          (fun r => strLt (pySlice5 r.start_time) e && strLt s (pySlice5 r.end_time)) with
      | none => rfl
      | some r => rfl

/-! ### C2: the overnight split -/

theorem charLex_irrefl (l : List Char) : ¬ List.Lex (fun x y : Char => x < y) l l := by
  induction l with
  | nil => intro h; cases h
  | cons a l ih =>
    intro h
    rw [charLex_cons_iff] at h
    rcases h with h | ⟨-, h⟩
    · omega
    · exact ih h

theorem strLt_ne {a b : String} (h : strLt a b = true) : a ≠ b := by
  intro hEq
  subst hEq
  exact charLex_irrefl a.data ((list_lt_iff_charLex _ _).mp (of_decide_eq_true h))

/-- C2: for a validated overnight request (end parses before start),
both halves are conflict-checked; if either check fires, nothing is
appended to either table, and otherwise exactly the two split records
are appended, sharing one base id with suffixes _1 and _2, half A on
the request date ending 24:00 and half B on the next day starting
00:00. -/
theorem overnight_create_spec (df : List Booking) (logs : List LogEntry)
    (un ul qn : String) (d : PyDate) (ss es pw bid ts fs fe : String)
    (hn : ¬ un = "") (hp : pwValid pw = true)
    (hs : parse_time ss = some fs) (he : parse_time es = some fe)
    (hov : strLt fe fs = true) :
    ((check_overlap df (dateStr d) qn fs "24:00").1 = true ∨
        (check_overlap df (dateStr (nextDay d)) qn "00:00" fe).1 = true →
      (create_booking df logs un ul qn d ss es pw bid ts).bookings = df ∧
        (create_booking df logs un ul qn d ss es pw bid ts).logs = logs ∧
        (create_booking df logs un ul qn d ss es pw bid ts).error.isSome = true) ∧
    ((check_overlap df (dateStr d) qn fs "24:00").1 = false ∧
        (check_overlap df (dateStr (nextDay d)) qn "00:00" fe).1 = false →
      (create_booking df logs un ul qn d ss es pw bid ts).error = none ∧
        (create_booking df logs un ul qn d ss es pw bid ts).bookings =
          df ++ [⟨bid ++ "_1", un, ul, qn, dateStr d, fs, "24:00", pw⟩,
                 ⟨bid ++ "_2", un, ul, qn, dateStr (nextDay d), "00:00", fe, pw⟩]) := by
  have hne : ¬ fs = fe := fun hEq => strLt_ne hov hEq.symm
  constructor
  · intro hcase
    have hor : ((check_overlap df (dateStr d) qn fs "24:00").1 ||
        (check_overlap df (dateStr (nextDay d)) qn "00:00" fe).1) = true := by
      rcases hcase with h | h <;> simp [h]
    refine ⟨?_, ?_, ?_⟩ <;>
      simp [create_booking, hn, hp, hs, he, hne, hov, hor]
  · rintro ⟨h1, h2⟩
    have hor : ((check_overlap df (dateStr d) qn fs "24:00").1 ||
        (check_overlap df (dateStr (nextDay d)) qn "00:00" fe).1) = false := by
      simp [h1, h2]
    constructor <;>
      simp [create_booking, hn, hp, hs, he, hne, hov, hor]

/-- Witness for C2: a pre-existing reservation from 23:30 to 23:45
blocks the overnight request 2300 to 0300, leaving both tables
unchanged. -/
theorem overnight_create_spec_witness :
    (create_booking [⟨"x1", "Old", "L", "R", "2025-01-06", "23:30", "23:45", "0000"⟩]
        [] "Kim" "L" "R" ⟨2025, 1, 6⟩ "2300" "0300" "1234" "B" "T").bookings =
      [⟨"x1", "Old", "L", "R", "2025-01-06", "23:30", "23:45", "0000"⟩] ∧
    (create_booking [⟨"x1", "Old", "L", "R", "2025-01-06", "23:30", "23:45", "0000"⟩]
        [] "Kim" "L" "R" ⟨2025, 1, 6⟩ "2300" "0300" "1234" "B" "T").logs = [] ∧
    (create_booking [⟨"x1", "Old", "L", "R", "2025-01-06", "23:30", "23:45", "0000"⟩]
        [] "Kim" "L" "R" ⟨2025, 1, 6⟩ "2300" "0300" "1234" "B" "T").error.isSome = true :=
  (overnight_create_spec _ [] "Kim" "L" "R" ⟨2025, 1, 6⟩ "2300" "0300" "1234" "B" "T"
      "23:00" "03:00" (by decide) (by decide) (by decide) (by decide) (by decide)).1
    (by decide)

/-! ### C6: failed create requests change nothing -/

/-- C6: whenever a create request fails for any of the enumerated
reasons (empty requester, malformed password, unparsable time, equal
start and end, or a reported conflict on either branch), the bookings
table and the audit log are returned unchanged, and an error is
reported. -/
theorem create_failure_frame (df : List Booking) (logs : List LogEntry)
    (un ul qn : String) (d : PyDate) (ss es pw bid ts : String)
    (h : un = "" ∨ pwValid pw = false ∨ parse_time ss = none ∨ parse_time es = none ∨
      (∃ fs fe, parse_time ss = some fs ∧ parse_time es = some fe ∧
        (fs = fe ∨
          (strLt fe fs = true ∧
            ((check_overlap df (dateStr d) qn fs "24:00").1 = true ∨
              (check_overlap df (dateStr (nextDay d)) qn "00:00" fe).1 = true)) ∨
          (strLt fe fs = false ∧ (check_overlap df (dateStr d) qn fs fe).1 = true)))) :
    (create_booking df logs un ul qn d ss es pw bid ts).bookings = df ∧
      (create_booking df logs un ul qn d ss es pw bid ts).logs = logs ∧
      (create_booking df logs un ul qn d ss es pw bid ts).error.isSome = true := by
  rcases h with h1 | h2 | h3 | h4 | ⟨fs, fe, hps, hpe, hfail⟩
  · refine ⟨?_, ?_, ?_⟩ <;> simp [create_booking, h1]
  · by_cases h1 : un = ""
    · refine ⟨?_, ?_, ?_⟩ <;> simp [create_booking, h1]
    · refine ⟨?_, ?_, ?_⟩ <;> simp [create_booking, h1, h2]
  · by_cases h1 : un = ""
    · refine ⟨?_, ?_, ?_⟩ <;> simp [create_booking, h1]
    · by_cases h2 : pwValid pw = true
      · cases hpe : parse_time es <;>
          refine ⟨?_, ?_, ?_⟩ <;> simp [create_booking, h1, h2, h3, hpe]
      · refine ⟨?_, ?_, ?_⟩ <;> simp [create_booking, h1,
          (by simpa using h2 : pwValid pw = false)]
  · by_cases h1 : un = ""
    · refine ⟨?_, ?_, ?_⟩ <;> simp [create_booking, h1]
    · by_cases h2 : pwValid pw = true
      · cases hps : parse_time ss <;>
          refine ⟨?_, ?_, ?_⟩ <;> simp [create_booking, h1, h2, h4, hps]
      · refine ⟨?_, ?_, ?_⟩ <;> simp [create_booking, h1,
          (by simpa using h2 : pwValid pw = false)]
  · by_cases h1 : un = ""
    · refine ⟨?_, ?_, ?_⟩ <;> simp [create_booking, h1]
    · by_cases h2 : pwValid pw = true
      · rcases hfail with hEq | ⟨hov, hconf⟩ | ⟨hnov, hconf⟩
        · refine ⟨?_, ?_, ?_⟩ <;> simp [create_booking, h1, h2, hps, hpe, hEq]
        · have hne : ¬ fs = fe := fun hEq => strLt_ne hov hEq.symm
          have hor : ((check_overlap df (dateStr d) qn fs "24:00").1 ||
              (check_overlap df (dateStr (nextDay d)) qn "00:00" fe).1) = true := by
            rcases hconf with hc | hc <;> simp [hc]
          refine ⟨?_, ?_, ?_⟩ <;>
            simp [create_booking, h1, h2, hps, hpe, hne, hov, hor]
        · by_cases hne : fs = fe
          · refine ⟨?_, ?_, ?_⟩ <;> simp [create_booking, h1, h2, hps, hpe, hne]
          · refine ⟨?_, ?_, ?_⟩ <;>
              simp [create_booking, h1, h2, hps, hpe, hne, hnov, hconf]
      · refine ⟨?_, ?_, ?_⟩ <;> simp [create_booking, h1,
          (by simpa using h2 : pwValid pw = false)]

/-- Witness for C6: a request with an empty requester name leaves the
store and the log unchanged. -/
theorem create_failure_frame_witness :
    (create_booking [] [] "" "L" "R" ⟨2025, 1, 6⟩ "0900" "1000" "1234" "B" "T").bookings = [] ∧
      (create_booking [] [] "" "L" "R" ⟨2025, 1, 6⟩ "0900" "1000" "1234" "B" "T").logs = [] ∧
      (create_booking [] [] "" "L" "R" ⟨2025, 1, 6⟩ "0900" "1000" "1234" "B" "T").error.isSome
        = true :=
  create_failure_frame [] [] "" "L" "R" ⟨2025, 1, 6⟩ "0900" "1000" "1234" "B" "T"
    (Or.inl rfl)

/-! ### C10: delete removes exactly the matching id -/

/-- C10: on a password match, delete keeps precisely the rows whose id
differs from the target id, as a sublist of the original table (so
every surviving row is bitwise unchanged); in particular the _2 half of
an overnight pair survives the deletion of the _1 half. -/
theorem delete_booking_spec (df : List Booking) (logs : List LogEntry) (b : Booking)
    (pw ts : String) (h : pw = b.password) :
    (∀ r, r ∈ (delete_booking df logs b pw ts).1 ↔ r ∈ df ∧ r.id ≠ b.id) ∧
      (delete_booking df logs b pw ts).1.Sublist df ∧
      (∀ base r2, r2 ∈ df → r2.id = base ++ "_2" → b.id = base ++ "_1" →
        r2 ∈ (delete_booking df logs b pw ts).1) := by
  simp only [delete_booking, if_pos h]
  refine ⟨?_, List.filter_sublist df, ?_⟩
  · intro r
    rw [List.mem_filter]
    simp [bne_iff_ne]
  · intro base r2 hr2 h2 hb
    rw [List.mem_filter]
    refine ⟨hr2, ?_⟩
    simp only [bne_iff_ne, ne_eq]
    rw [h2, hb]
    intro hEq
    have hd : (base ++ "_2").data = (base ++ "_1").data := congrArg String.data hEq
    rw [String.data_append, String.data_append] at hd
    exact absurd (List.append_cancel_left hd) (by decide)

/-- Witness for C10: deleting the _1 half of a split pair keeps the _2
half. -/
theorem delete_booking_spec_witness :
    (⟨"B_2", "Kim", "L", "R", "2025-01-07", "00:00", "03:00", "1234"⟩ : Booking) ∈
      (delete_booking
        [⟨"B_1", "Kim", "L", "R", "2025-01-06", "23:00", "24:00", "1234"⟩,
         ⟨"B_2", "Kim", "L", "R", "2025-01-07", "00:00", "03:00", "1234"⟩]
        [] ⟨"B_1", "Kim", "L", "R", "2025-01-06", "23:00", "24:00", "1234"⟩
        "1234" "T").1 :=
  (delete_booking_spec
      [⟨"B_1", "Kim", "L", "R", "2025-01-06", "23:00", "24:00", "1234"⟩,
       ⟨"B_2", "Kim", "L", "R", "2025-01-07", "00:00", "03:00", "1234"⟩]
      [] ⟨"B_1", "Kim", "L", "R", "2025-01-06", "23:00", "24:00", "1234"⟩
      "1234" "T" rfl).2.2 "B"
    ⟨"B_2", "Kim", "L", "R", "2025-01-07", "00:00", "03:00", "1234"⟩
    (by decide) rfl rfl

/-! ### C4: the admin registry save does not cascade -/

/-- C4 counterexample: replacing Lab1 by LabX through the admin labs
editor rewrites the registry but leaves the Reservation row and the
WaterUsage row that reference Lab1 untouched, contradicting the claimed
cascade (and no duplicate-name failure path exists at all). -/
theorem admin_rename_counterexample :
    (admin_save_labs c4state ["LabX"]).labs = ["LabX"] ∧
      (∃ r ∈ (admin_save_labs c4state ["LabX"]).bookings, r.lab = "Lab1") ∧
      (∃ w ∈ (admin_save_labs c4state ["LabX"]).water, w.lab = "Lab1") ∧
      ("Lab1" : String) ≠ "LabX" := by decide

/-- C4 amended: the admin settings save overwrites the lab registry
with the edited rows as given (no duplicate-name check) and leaves the
reservations, water usage, equipment and log tables exactly unchanged;
no rename propagation is performed. -/
theorem admin_save_labs_frame (st : AppState) (edited : List String) :
    (admin_save_labs st edited).labs = edited ∧
      (admin_save_labs st edited).equipment = st.equipment ∧
      (admin_save_labs st edited).bookings = st.bookings ∧
      (admin_save_labs st edited).water = st.water ∧
      (admin_save_labs st edited).logs = st.logs :=
  ⟨rfl, rfl, rfl, rfl, rfl⟩

/-! ### C9: the conflict checker is total on dirty data -/

/-- C9: on the dynamically typed view, check_overlap returns the
no-conflict result (false, empty string) on an empty table and
whenever any of the columns it touches is missing from the table (the
caught pandas exception path); and on schema-complete tables it agrees
exactly with the typed model. -/
theorem rawCheckOverlap_spec :
    (∀ (cols : List String) (d q s e : String),
        rawCheckOverlap ⟨cols, []⟩ d q s e = (false, "")) ∧
    (∀ (df : RawDF) (d q s e : String),
        ("date" ∉ df.cols ∨ "equipment" ∉ df.cols ∨ "start_time" ∉ df.cols ∨
          "end_time" ∉ df.cols ∨ "user_name" ∉ df.cols) →
        rawCheckOverlap df d q s e = (false, "")) ∧
    (∀ (bs : List Booking) (d q s e : String),
        rawCheckOverlap (toRawDF bs) d q s e = check_overlap bs d q s e) := by
  refine ⟨fun cols d q s e => rfl, ?_, ?_⟩
  · intro df d q s e h
    obtain ⟨cols, rows⟩ := df
    simp only at h
    simp only [rawCheckOverlap]
    by_cases h0 : rows.isEmpty
    · rw [if_pos h0]
    · rw [if_neg h0]
      by_cases hg1 : (cols.contains "date" && cols.contains "equipment") = true
      · simp only [hg1, Bool.not_true]
        simp only [Bool.false_eq_true, if_false]
        by_cases hsame : (rows.filter fun r => r "date" == d && r "equipment" == q).isEmpty
        · rw [if_pos hsame]
        · rw [if_neg hsame]
          by_cases hg2 : (cols.contains "start_time" && cols.contains "end_time") = true
          · simp only [hg2, Bool.not_true]
            simp only [Bool.false_eq_true, if_false]
            have hun : cols.contains "user_name" = false := by
              simp only [Bool.and_eq_true] at hg1 hg2
              rcases h with h | h | h | h | h
              · exact absurd (List.elem_iff.mp hg1.1) h
              · exact absurd (List.elem_iff.mp hg1.2) h
              · exact absurd (List.elem_iff.mp hg2.1) h
              · exact absurd (List.elem_iff.mp hg2.2) h
              · rw [← Bool.not_eq_true]
                intro hc
                exact h (List.elem_iff.mp hc)
            cases hfind : (rows.filter fun r => r "date" == d && r "equipment" == q).find?
                fun r => strLt (pySlice5 (r "start_time")) e &&
                  strLt s (pySlice5 (r "end_time")) with
            | none => rfl
            | some r => simp only [hun, Bool.false_eq_true, if_false]
          · have hg2f : (!(cols.contains "start_time" && cols.contains "end_time")) = true := by
              simp only [Bool.not_eq_true']
              exact Bool.not_eq_true _ ▸ (by simpa using hg2)
            rw [if_pos hg2f]
      · have hg1f : (!(cols.contains "date" && cols.contains "equipment")) = true := by
          simp only [Bool.not_eq_true']
          exact Bool.not_eq_true _ ▸ (by simpa using hg1)
        rw [if_pos hg1f]
  · intro bs d q s e
    have cdate : bookingCols.contains "date" = true := rfl
    have cequip : bookingCols.contains "equipment" = true := rfl
    have cstart : bookingCols.contains "start_time" = true := rfl
    have cend : bookingCols.contains "end_time" = true := rfl
    have cuser : bookingCols.contains "user_name" = true := rfl
    have bdate : ∀ b : Booking, bookingCell b "date" = b.date := fun b => rfl
    have bequip : ∀ b : Booking, bookingCell b "equipment" = b.equipment := fun b => rfl
    have bstart : ∀ b : Booking, bookingCell b "start_time" = b.start_time := fun b => rfl
    have bend : ∀ b : Booking, bookingCell b "end_time" = b.end_time := fun b => rfl
    have buser : ∀ b : Booking, bookingCell b "user_name" = b.user_name := fun b => rfl
    simp only [rawCheckOverlap, check_overlap, toRawDF, isEmpty_map, List.filter_map,
      Function.comp_def, List.find?_map, cdate, cequip, cstart, cend, cuser,
      bdate, bequip, bstart, bend, buser, Bool.and_self, Bool.not_true,
      Bool.false_eq_true, if_false, isEmpty_map]
    by_cases h1 : bs.isEmpty
    · rw [if_pos h1, if_pos h1]
    · rw [if_neg h1, if_neg h1]
      by_cases h2 : (bs.filter fun r => r.date == d && r.equipment == q).isEmpty
      · rw [if_pos h2, if_pos h2]
      · rw [if_neg h2, if_neg h2]
        cases hf : (bs.filter fun r => r.date == d && r.equipment == q).find?
            (fun r => strLt (pySlice5 r.start_time) e && strLt s (pySlice5 r.end_time)) with
        | none => rfl
        | some r => rfl

/-- Witness for C9: a one-row table that lacks the equipment column is
reported conflict-free. -/
theorem rawCheckOverlap_spec_witness :
    rawCheckOverlap ⟨["date"], [fun _ => "x"]⟩ "2025-01-06" "R" "09:00" "10:00" =
      (false, "") :=
  rawCheckOverlap_spec.2.1 ⟨["date"], [fun _ => "x"]⟩ "2025-01-06" "R" "09:00" "10:00"
    (Or.inr (Or.inl (by decide)))
